import Mathlib

/-!
Shallow embedding of the Flip 7 game core (src/src/card.py, player_hand.py,
scoring.py, deck.py, game_state.py, action_handler.py, strategy.py).

Modelling conventions:
* Python's mutable objects become explicit state passing: a method that
  mutates `self` and returns `r` becomes a Lean function returning the
  updated value together with `r`.
* Python exceptions become `Option` (`none` = the call raised and, since
  every raise in the source happens before any mutation, the caller's state
  is unchanged).
* Python `float` arithmetic in the strategy engine is modelled with `ℚ`;
  every probability computation in the source is a ratio of card counts, so
  the real-valued claims (bounds, zeroness, monotonicity, comparisons) are
  about these exact ratios.
* `set` of ints becomes `Finset ℕ`; Python dicts of per-category counts
  become count functions over the deck list, which is the same sufficient
  statistic the source builds in `Strategy.count_remaining_cards`.
-/

/-- Action card kinds (card.py `ActionType`). -/
inductive ActionType
  | FREEZE
  | FLIP_THREE
  | SECOND_CHANCE
deriving DecidableEq, Fintype

/-- Modifier card kinds (card.py `ModifierType`). -/
inductive ModifierType
  | PLUS_2
  | PLUS_4
  | PLUS_6
  | PLUS_8
  | PLUS_10
  | TIMES_2
deriving DecidableEq, Fintype

/-- A card (card.py `Card`). The Python dataclass keeps one `type` tag plus
optional fields and `__post_init__` rejects exactly those field combinations
this tagged union cannot express (a Number without a value, an Action
without an action kind, a Modifier without a modifier kind), so the
validated dataclass is this sum type: a Number carries its value, a
Modifier carries its kind and its face value (`modifier_value`), an Action
carries its kind. -/
inductive Card
  | number (value : ℕ)
  | modifier (modifier_type : ModifierType) (modifier_value : ℤ)
  | action (action_type : ActionType)
deriving DecidableEq

/-- The `value` field of the dataclass: `some` only on Number cards. -/
def Card.value? : Card → Option ℕ
  | .number v => some v
  | _ => none

/-- The `action_type` field of the dataclass: `some` only on Action cards. -/
def Card.action_type : Card → Option ActionType
  | .action a => some a
  | _ => none

/-- The `modifier_type` field of the dataclass: `some` only on Modifier cards. -/
def Card.modifier_type : Card → Option ModifierType
  | .modifier m _ => some m
  | _ => none

/-- The `modifier_value` field of the dataclass (its default is `0` on
non-modifier cards). -/
def Card.modifier_value : Card → ℤ
  | .modifier _ x => x
  | _ => 0

/-- Result of `PlayerHand.add_card` (player_hand.py `AddCardResult`). -/
inductive AddCardResult
  | SUCCESS
  | BUST
  | DUPLICATE_WITH_SECOND_CHANCE
  | FROZEN
deriving DecidableEq

/-- A player's hand (player_hand.py `PlayerHand`): the set of unique held
numbers, the collected modifier cards, the visible action cards, and the
three status flags. -/
structure PlayerHand where
  number_cards : Finset ℕ
  modifiers : List Card
  action_cards : List Card
  second_chance_available : Bool
  is_frozen : Bool
  has_busted : Bool
deriving DecidableEq

/-- The freshly constructed hand: all dataclass fields take their
`field(default_factory=...)` / `False` defaults. -/
def emptyHand : PlayerHand :=
  { number_cards := ∅
    modifiers := []
    action_cards := []
    second_chance_available := false
    is_frozen := false
    has_busted := false }

instance : Inhabited PlayerHand := ⟨emptyHand⟩

/-- `PlayerHand.add_card` (player_hand.py lines 38-78): returns the updated
hand together with the result the Python method returns. The final
`return AddCardResult.SUCCESS` of the source is unreachable because the
three card types are exhaustive. -/
def PlayerHand.add_card (h : PlayerHand) (card : Card) :
    PlayerHand × AddCardResult :=
  if h.is_frozen then (h, .FROZEN)
  else
    match card with
    | .number v =>
      if v ∈ h.number_cards then
        if h.second_chance_available then (h, .DUPLICATE_WITH_SECOND_CHANCE)
        else ({ h with has_busted := true }, .BUST)
      else ({ h with number_cards := insert v h.number_cards }, .SUCCESS)
    | .modifier _ _ =>
      ({ h with modifiers := h.modifiers ++ [card] }, .SUCCESS)
    | .action a =>
      match a with
      | .FREEZE => ({ h with is_frozen := true }, .FROZEN)
      | .SECOND_CHANCE =>
        ({ h with second_chance_available := true,
                  action_cards := h.action_cards ++ [card] }, .SUCCESS)
      | .FLIP_THREE =>
        ({ h with action_cards := h.action_cards ++ [card] }, .SUCCESS)

/-- The loop at the end of `use_second_chance`: pop the first visible card
whose `action_type` is SECOND_CHANCE and stop; if none matches, the list is
unchanged. -/
def removeFirstSecondChance : List Card → List Card
  | [] => []
  | c :: rest =>
    if c.action_type = some ActionType.SECOND_CHANCE then rest
    else c :: removeFirstSecondChance rest

/-- `PlayerHand.use_second_chance` (player_hand.py lines 80-100): the three
`raise ValueError` exits become `none`; on success the flag is cleared and
one visible SECOND_CHANCE card is removed. -/
def PlayerHand.use_second_chance (h : PlayerHand) (duplicate_card : Card) :
    Option PlayerHand :=
  if !h.second_chance_available then none
  else
    match duplicate_card with
    | .number v =>
      if v ∈ h.number_cards then
        some { h with second_chance_available := false,
                      action_cards := removeFirstSecondChance h.action_cards }
      else none
    | _ => none

/-- `PlayerHand.has_flip_seven`: exactly 7 unique number cards. -/
def PlayerHand.has_flip_seven (h : PlayerHand) : Bool :=
  h.number_cards.card = 7

/-- `PlayerHand.clear`: reset every field for a new round. -/
def PlayerHand.clear (_h : PlayerHand) : PlayerHand := emptyHand

/-- `has_times_two_modifier` (scoring.py): X2 presence check. -/
def has_times_two_modifier (modifiers : List Card) : Bool :=
  modifiers.any fun card => card.modifier_type = some ModifierType.TIMES_2

/-- `get_modifier_points` (scoring.py): accumulate the face values of the
non-X2 modifier cards, in list order, starting from 0. -/
def get_modifier_points (modifiers : List Card) : ℤ :=
  modifiers.foldl
    (fun total card =>
      if card.modifier_type ≠ some ModifierType.TIMES_2 then
        total + card.modifier_value
      else total)
    0

/-- `calculate_score` (scoring.py lines 12-44): 0 if busted; otherwise sum
of unique numbers, doubled when X2 is present, plus the flat modifier
points, plus 15 when the hand gets the Flip 7 bonus. -/
def calculate_score (hand : PlayerHand) (has_flip_seven_bonus : Bool) : ℤ :=
  if hand.has_busted then 0
  else
    let base_score : ℤ := ∑ v ∈ hand.number_cards, (v : ℤ)
    let base_score :=
      if has_times_two_modifier hand.modifiers then base_score * 2
      else base_score
    let total := base_score + get_modifier_points hand.modifiers
    if has_flip_seven_bonus then total + 15 else total

/-- The 94-card standard composition (deck.py `_create_standard_deck`), in
the source's build order: for each value 0..12, `1 if value <= 1 else value`
copies of that Number card; then the six modifier cards with their face
values (0 for X2); then three copies of each action kind, in the source's
order Freeze, FlipThree, SecondChance. -/
def createStandardDeck : List Card :=
  ((List.range 13).flatMap fun value =>
    List.replicate (if value ≤ 1 then 1 else value) (Card.number value))
  ++ [Card.modifier .PLUS_2 2, Card.modifier .PLUS_4 4,
      Card.modifier .PLUS_6 6, Card.modifier .PLUS_8 8,
      Card.modifier .PLUS_10 10, Card.modifier .TIMES_2 0]
  ++ (List.replicate 3 (Card.action .FREEZE)
      ++ List.replicate 3 (Card.action .FLIP_THREE)
      ++ List.replicate 3 (Card.action .SECOND_CHANCE))

/-- The deck (deck.py `Deck`): the live card list (Python `_cards`, drawn
from the back) and the pristine copy (`_original_cards`) kept for `reset`. -/
structure Deck where
  cards : List Card
  original_cards : List Card
deriving DecidableEq

/-- `Deck.__init__`: a fresh deck holds the standard composition, and keeps
a copy of it for later resets. -/
def Deck.new : Deck :=
  { cards := createStandardDeck, original_cards := createStandardDeck }

/-- `Deck.cards_remaining`. -/
def Deck.cards_remaining (d : Deck) : ℕ := d.cards.length

/-- `Deck.reset`: restore the full pristine list, then shuffle.  The
shuffle draws a random permutation, so it is modelled by quantifying over
the post-shuffle order: `shuffled` is the new card order and the theorems
about `reset` take the hypothesis that it is a permutation of the restored
`original_cards`, which is the only guarantee `random.shuffle` gives. -/
def Deck.reset (d : Deck) (shuffled : List Card) : Deck :=
  { cards := shuffled, original_cards := d.original_cards }

/-- The round state (game_state.py `GameState`): one deck, the indexed
player hands, and the round-scoped flags. -/
structure GameState where
  deck : Deck
  players : List PlayerHand
  flip_seven_claimed : Bool
  flip_seven_player_idx : Option ℕ
  round_active : Bool
deriving DecidableEq

/-- `GameState.get_player_hand` for a valid index; the source raises
`ValueError` on an out-of-range index, so theorems about a "valid player
index" carry `pidx < gs.players.length` and this default is never read. -/
def getPlayer (gs : GameState) (pidx : ℕ) : PlayerHand :=
  gs.players.getD pidx emptyHand

/-- Apply `hand.add_card(card)` to player `pidx` in place, returning the
result and the updated state (the Python call mutates the hand object held
in `game_state.players`). -/
def addCardToPlayer (gs : GameState) (pidx : ℕ) (card : Card) :
    AddCardResult × GameState :=
  let p := (getPlayer gs pidx).add_card card
  (p.2, { gs with players := gs.players.set pidx p.1 })

/-- `GameState.start_round` (game_state.py lines 33-46): clear every hand,
restore and shuffle the deck (`shuffled` is the post-shuffle order, as in
`Deck.reset`), and reset the round flags. -/
def GameState.start_round (gs : GameState) (shuffled : List Card) : GameState :=
  { gs with
    players := gs.players.map PlayerHand.clear
    deck := gs.deck.reset shuffled
    flip_seven_claimed := false
    flip_seven_player_idx := none
    round_active := true }

/-- `GameState.draw_card` (game_state.py lines 48-79).  The four
`raise ValueError` guards and the empty-deck `IndexError` from `deck.draw`
become `none`; they all fire before any mutation.  Otherwise the top card
(the back of `cards`) is removed, added to the player's hand, and the
Flip-Seven race is arbitrated: the first hand of the round to reach exactly
7 uniques claims the bonus and deactivates the round. -/
def GameState.draw_card (gs : GameState) (pidx : ℕ) :
    Option ((Card × AddCardResult) × GameState) :=
  if !gs.round_active then none
  else if gs.players.length ≤ pidx then none
  else if (getPlayer gs pidx).is_frozen then none
  else if (getPlayer gs pidx).has_busted then none
  else
    match gs.deck.cards.getLast? with
    | none => none
    | some card =>
      let gs1 : GameState :=
        { gs with deck := { gs.deck with cards := gs.deck.cards.dropLast } }
      let a := addCardToPlayer gs1 pidx card
      let gs3 :=
        if (getPlayer a.2 pidx).has_flip_seven && !a.2.flip_seven_claimed then
          { a.2 with
            flip_seven_claimed := true
            flip_seven_player_idx := some pidx
            round_active := false }
        else a.2
      some ((card, a.1), gs3)

/-- `GameState.end_round` (game_state.py lines 81-94): score every hand,
passing bonus eligibility exactly to the recorded flip-seven player, and
deactivate the round.  The Python dict `{idx: score}` over indices
`0..len-1` is the returned list read at position `idx`. -/
def GameState.end_round (gs : GameState) : List ℤ × GameState :=
  ((List.range gs.players.length).map fun idx =>
      calculate_score (getPlayer gs idx) (gs.flip_seven_player_idx = some idx),
   { gs with round_active := false })

/-- `GameState.is_round_over`. -/
def GameState.is_round_over (gs : GameState) : Bool :=
  gs.flip_seven_claimed ||
    gs.players.all fun player => player.is_frozen || player.has_busted

/-- The per-value entry of `Strategy.count_remaining_cards(game)["numbers"]`:
how many cards of the remaining deck are the Number card `v`. -/
def countNumberInDeck (cards : List Card) (v : ℕ) : ℕ :=
  cards.countP fun c => c.value? == some v

/-- The per-kind entry of `count_remaining_cards(game)["modifiers"]`. -/
def countModifierInDeck (cards : List Card) (m : ModifierType) : ℕ :=
  cards.countP fun c => c.modifier_type == some m

/-- The per-kind entry of `count_remaining_cards(game)["actions"]`. -/
def countActionInDeck (cards : List Card) (a : ActionType) : ℕ :=
  cards.countP fun c => c.action_type == some a

/-- The key set of `count_remaining_cards(game)["numbers"]`: the distinct
Number values present in the remaining deck.  The Python loops iterate the
dict's keys once each; summing a per-key term over this set is that
iteration (summation order does not change the total). -/
def deckNumberValues (cards : List Card) : Finset ℕ :=
  cards.foldr
    (fun c s => match c with | .number v => insert v s | _ => s) ∅

/-- `Strategy._simulate_add_number`: field-by-field copy of the hand, then
insert the extra number into the copy. -/
def simulate_add_number (hand : PlayerHand) (number : ℕ) : PlayerHand :=
  { hand with number_cards := insert number hand.number_cards }

/-- `mod_value_map` of `Strategy._simulate_add_modifier`. -/
def modValueMap : ModifierType → ℤ
  | .PLUS_2 => 2
  | .PLUS_4 => 4
  | .PLUS_6 => 6
  | .PLUS_8 => 8
  | .PLUS_10 => 10
  | .TIMES_2 => 0

/-- `Strategy._simulate_add_modifier`: field-by-field copy of the hand, then
append a freshly built modifier card to the copy. -/
def simulate_add_modifier (hand : PlayerHand) (mod_type : ModifierType) :
    PlayerHand :=
  { hand with
    modifiers := hand.modifiers ++ [Card.modifier mod_type (modValueMap mod_type)] }

/-- The `for _ in range(draws)` loop of `Strategy._estimate_flip_three_ev`.
The deck is never drawn from inside the loop and `temp_numbers` never
changes, so `bust_prob_this_draw` is the same ratio `p` at every iteration
(except when it is zeroed by the second-chance branch), and the
`remaining == 0` break can never fire because the caller has already
checked `cards_remaining > 1`; both are therefore precomputed/omitted here.
State per iteration: the second-chance flag of the hand being mutated, the
accumulated `total_bust_prob`, and `temp_value` (which grows by
`6.5 * 0.5 = 13/4` per surviving iteration).  `Except.error` is the
`return 0.0` taken when the accumulated bust probability reaches 1;
`Except.ok` is normal loop exit.  Either way the final second-chance flag
is carried out, because the Python loop wrote it through to the real hand. -/
def flipThreeLoop : ℕ → ℚ → Bool → ℚ → ℚ → Except Bool (ℚ × ℚ × Bool)
  | 0, _, sc, total_bust, temp_value => .ok (total_bust, temp_value, sc)
  | k + 1, p, sc, total_bust, temp_value =>
    let step := if sc ∧ total_bust = 0 then ((0 : ℚ), false) else (p, sc)
    let total_bust' := total_bust + step.1 * (1 - total_bust)
    if 1 ≤ total_bust' then .error step.2
    else flipThreeLoop k p step.2 total_bust' (temp_value + 13 / 4)

/-- Overwrite the second-chance flag of player `pidx` (the effect of the
Python statement `hand.second_chance_available = False` executed on the
hand object stored in the game state; writing back an unchanged flag is the
identity). -/
def setPlayerSC (gs : GameState) (pidx : ℕ) (b : Bool) : GameState :=
  { gs with
    players :=
      gs.players.set pidx
        { getPlayer gs pidx with second_chance_available := b } }

/-- `Strategy._estimate_flip_three_ev` (strategy.py lines 169-220).  Returns
the estimate together with the updated game state: the source mutates the
real hand's `second_chance_available` flag inside the loop, and that write
is the only mutation it performs.  `total_value` in the source is assigned
and never read, so it is not modelled. -/
def estimate_flip_three_ev (gs : GameState) (pidx : ℕ) : ℚ × GameState :=
  let hand := getPlayer gs pidx
  let cards_remaining := gs.deck.cards_remaining
  if cards_remaining ≤ 1 then
    ((calculate_score hand hand.has_flip_seven : ℚ), gs)
  else
    let draws := min 3 cards_remaining
    let temp_value : ℚ := ∑ v ∈ hand.number_cards, (v : ℚ)
    let p : ℚ :=
      ((∑ v ∈ hand.number_cards, countNumberInDeck gs.deck.cards v : ℕ) : ℚ)
        / (cards_remaining : ℚ)
    match flipThreeLoop draws p hand.second_chance_available 0 temp_value with
    | .error sc => ((0 : ℚ), setPlayerSC gs pidx sc)
    | .ok (total_bust, temp_value', sc) =>
      (if (4 : ℚ) / 5 ≤ total_bust then 0 else temp_value' * (1 - total_bust),
       setPlayerSC gs pidx sc)

/-- One summand of the `for number, count in counts["numbers"].items()`
loop of `calculate_expected_value_of_hit`: `cnt` is the remaining count of
the value `v` and `n` the total remaining cards.  A held value contributes
the current score when second chance is available and an explicit 0
otherwise; a new value contributes the score of the simulated hand, with a
further +15 on top of the bonus-flagged score when the simulated hand has
flip seven. -/
def numberTerm (cnt n : ℕ) (hand : PlayerHand) (v : ℕ) : ℚ :=
  ((cnt : ℚ) / (n : ℚ)) *
    (if v ∈ hand.number_cards then
      (if hand.second_chance_available then
        (calculate_score hand hand.has_flip_seven : ℚ)
      else 0)
    else
      (calculate_score (simulate_add_number hand v)
          (simulate_add_number hand v).has_flip_seven : ℚ)
        + (if (simulate_add_number hand v).has_flip_seven then 15 else 0))

/-- One summand of the modifiers loop of `calculate_expected_value_of_hit`:
the simulated hand is scored at the real hand's flip-seven status. -/
def modifierTerm (cnt n : ℕ) (hand : PlayerHand) (m : ModifierType) : ℚ :=
  ((cnt : ℚ) / (n : ℚ)) *
    (calculate_score (simulate_add_modifier hand m) hand.has_flip_seven : ℚ)

/-- `Strategy.calculate_expected_value_of_hit` (strategy.py lines 59-125).
Returns the EV together with the post-call game state (the FLIP_THREE
branch delegates to `estimate_flip_three_ev`, which can clear the real
hand's second-chance flag; that estimator runs exactly when a FLIP_THREE
card remains in the deck).  The three Python dict loops iterate each
present key once; absent keys would contribute a `0/n * _ = 0` summand, so
the number sum ranges over the values present in the deck and the modifier
and action sums over all kinds.  The FREEZE and SECOND_CHANCE action
summands read only score-relevant fields, which the estimator never
touches, so their value is unaffected by the order in which the dict
happens to list the action kinds. -/
def calculate_expected_value_of_hit (gs : GameState) (pidx : ℕ) :
    ℚ × GameState :=
  let hand := getPlayer gs pidx
  if hand.is_frozen || hand.has_busted then (0, gs)
  else
    let cards := gs.deck.cards
    let n := gs.deck.cards_remaining
    if n = 0 then (0, gs)
    else
      let numbersEV : ℚ :=
        ∑ v ∈ deckNumberValues cards, numberTerm (countNumberInDeck cards v) n hand v
      let modifiersEV : ℚ :=
        modifierTerm (countModifierInDeck cards .PLUS_2) n hand .PLUS_2
          + modifierTerm (countModifierInDeck cards .PLUS_4) n hand .PLUS_4
          + modifierTerm (countModifierInDeck cards .PLUS_6) n hand .PLUS_6
          + modifierTerm (countModifierInDeck cards .PLUS_8) n hand .PLUS_8
          + modifierTerm (countModifierInDeck cards .PLUS_10) n hand .PLUS_10
          + modifierTerm (countModifierInDeck cards .TIMES_2) n hand .TIMES_2
      let freezeEV : ℚ :=
        ((countActionInDeck cards .FREEZE : ℚ) / (n : ℚ)) *
          (calculate_score hand hand.has_flip_seven : ℚ)
      let secondChanceEV : ℚ :=
        ((countActionInDeck cards .SECOND_CHANCE : ℚ) / (n : ℚ)) *
          (calculate_score hand hand.has_flip_seven : ℚ)
      if 0 < countActionInDeck cards .FLIP_THREE then
        let est := estimate_flip_three_ev gs pidx
        (numbersEV + modifiersEV + freezeEV + secondChanceEV
          + ((countActionInDeck cards .FLIP_THREE : ℚ) / (n : ℚ)) * est.1,
         est.2)
      else
        (numbersEV + modifiersEV + freezeEV + secondChanceEV, gs)

/-- `Strategy._calculate_bust_probability` (strategy.py lines 268-298):
the summed remaining counts of the already-held values over the total
remaining cards, forced to 0 when second chance is available (and 0 on an
empty deck). -/
def calculate_bust_probability (gs : GameState) (pidx : ℕ) : ℚ :=
  let hand := getPlayer gs pidx
  let n := gs.deck.cards_remaining
  if n = 0 then 0
  else
    let duplicate_count : ℕ :=
      ∑ v ∈ hand.number_cards, countNumberInDeck gs.deck.cards v
    let bust_prob : ℚ := (duplicate_count : ℚ) / (n : ℚ)
    if hand.second_chance_available then 0 else bust_prob

/-- `Strategy.recommend_action` (strategy.py lines 222-266), returning the
recommendation string and the post-call game state.  The `details` dict is
a pure record of already-computed values (`current_score`, rounded copies
of `ev_hit` and of `calculate_bust_probability`, `cards_remaining`, the
advantage, a reason string); no computation or mutation depends on it, so
it is not modelled. -/
def recommend_action (gs : GameState) (pidx : ℕ) : String × GameState :=
  let hand := getPlayer gs pidx
  if hand.is_frozen || hand.has_busted then ("STAY", gs)
  else
    let current_score : ℚ := (calculate_score hand hand.has_flip_seven : ℚ)
    let ev := calculate_expected_value_of_hit gs pidx
    if (getPlayer ev.2 pidx).has_flip_seven then ("STAY", ev.2)
    else if current_score < ev.1 then ("HIT", ev.2)
    else ("STAY", ev.2)

/-- `ActionHandler.handle_freeze`. -/
def handle_freeze (hand : PlayerHand) : PlayerHand :=
  { hand with is_frozen := true }

/-- `ActionHandler.handle_second_chance`: delegate to
`hand.use_second_chance`, turning any validation failure into `false`
(and, since every raise happens before any mutation, an unchanged hand). -/
def handle_second_chance (hand : PlayerHand) (duplicate_card : Card) :
    Bool × PlayerHand :=
  match hand.use_second_chance duplicate_card with
  | some h => (true, h)
  | none => (false, hand)

/-- One entry of the list `ActionHandler.handle_flip_three` returns: the
Python list holds either an `AddCardResult` or — when a drawn card was
itself a FlipThree — the entire result list of the recursive call, appended
as a single element. -/
inductive FlipResult
  | res (r : AddCardResult)
  | sub (rs : List FlipResult)

/-- The `for _ in range(cards_to_draw)` loop of `handle_flip_three`, with
`k` iterations left to run.  `fuel` is a structural-recursion budget that
strictly decreases on every call; `handle_flip_three` supplies
`4 * |deck| + 4`, which exceeds the length of any possible call chain
(every call either pops a card off the deck first or, on the skipped
empty-deck iteration and on loop re-entry, keeps the deck and decreases the
iteration budget `k ≤ 3`), so the `fuel = 0` branch is unreachable from
`handle_flip_three`.  The loop body follows the source: when the deck is
empty the iteration draws nothing and the loop merely continues; a drawn
FlipThree card triggers a full recursive `handle_flip_three` whose result
list is appended as one element (the card itself is never passed to
`add_card`), and the outer loop continues with its remaining budget
whatever happened inside; a drawn Freeze card is added and the loop breaks;
any other card is added and the loop breaks exactly when the result is
BUST or DUPLICATE_WITH_SECOND_CHANCE. -/
def flipDraws (pidx : ℕ) : ℕ → GameState → ℕ → List FlipResult × GameState
  | 0, gs, _ => ([], gs)
  | _ + 1, gs, 0 => ([], gs)
  | fuel + 1, gs, k + 1 =>
    match gs.deck.cards.getLast? with
    | none => flipDraws pidx fuel gs k
    | some card =>
      let gs1 : GameState :=
        { gs with deck := { gs.deck with cards := gs.deck.cards.dropLast } }
      if card.action_type = some ActionType.FLIP_THREE then
        let r1 := flipDraws pidx fuel gs1 (min 3 gs1.deck.cards.length)
        let r2 := flipDraws pidx fuel r1.2 k
        (FlipResult.sub r1.1 :: r2.1, r2.2)
      else if card.action_type = some ActionType.FREEZE then
        let a := addCardToPlayer gs1 pidx card
        ([FlipResult.res a.1], a.2)
      else
        let a := addCardToPlayer gs1 pidx card
        if a.1 = AddCardResult.BUST
            ∨ a.1 = AddCardResult.DUPLICATE_WITH_SECOND_CHANCE then
          ([FlipResult.res a.1], a.2)
        else
          let r2 := flipDraws pidx fuel a.2 k
          (FlipResult.res a.1 :: r2.1, r2.2)

/-- `ActionHandler.handle_flip_three` (action_handler.py lines 30-72):
run the draw loop for `min(3, cards_remaining)` iterations. -/
def handle_flip_three (gs : GameState) (pidx : ℕ) :
    List FlipResult × GameState :=
  flipDraws pidx (4 * gs.deck.cards.length + 4) gs (min 3 gs.deck.cards.length)

/-- One externally driven step of an active round (spec section 4.4): a
draw for some player, or ending the round.  A step whose Python call raises
leaves the state unchanged (every raise fires before any mutation). -/
inductive Step
  | draw (pidx : ℕ)
  | endRound

/-- Apply one round step to the game state. -/
def applyStep (gs : GameState) (s : Step) : GameState :=
  match s with
  | .draw pidx =>
    match gs.draw_card pidx with
    | some r => r.2
    | none => gs
  | .endRound => gs.end_round.2

/-- Helper: the source's conditional fold in `get_modifier_points` computes
the sum of the face values of the non-X2 modifier cards. -/
theorem get_modifier_points_eq (l : List Card) :
    get_modifier_points l =
      ((l.filter fun c => !(c.modifier_type == some ModifierType.TIMES_2)).map
        Card.modifier_value).sum := by
  have aux : ∀ (l : List Card) (a : ℤ),
      l.foldl
          (fun total card =>
            if card.modifier_type ≠ some ModifierType.TIMES_2 then
              total + card.modifier_value
            else total) a
        = a + ((l.filter fun c =>
              !(c.modifier_type == some ModifierType.TIMES_2)).map
            Card.modifier_value).sum := by
    intro l
    induction l with
    | nil => intro a; simp
    | cons c rest ih =>
      intro a
      rw [List.foldl_cons]
      by_cases h : c.modifier_type = some ModifierType.TIMES_2
      · rw [if_neg (not_not.mpr h), ih, List.filter_cons]
        simp [h]
      · rw [if_pos h, ih, List.filter_cons]
        simp [h]
        ring
  simpa [get_modifier_points] using aux l 0

/-- The scoring rule, written from the spec's words (section 4.5): busted
hands score 0 unconditionally; otherwise base = sum of unique held numbers,
doubled when a Times2 modifier is present (a boolean presence check), plus
the sum of all non-Times2 modifier face values, plus 15 if `has_bonus`,
multiplying before adding. -/
def calculate_score_spec (hand : PlayerHand) (has_bonus : Bool) : ℤ :=
  if hand.has_busted then 0
  else
    (if hand.modifiers.any (fun c => c.modifier_type = some ModifierType.TIMES_2)
     then 2 * ∑ v ∈ hand.number_cards, (v : ℤ)
     else ∑ v ∈ hand.number_cards, (v : ℤ))
    + ((hand.modifiers.filter fun c =>
          !(c.modifier_type == some ModifierType.TIMES_2)).map
        Card.modifier_value).sum
    + (if has_bonus then 15 else 0)

/-- C5: `calculate_score(hand, has_bonus)` returns 0 for busted hands
regardless of contents, and otherwise the (possibly doubled) sum of unique
numbers plus the flat modifier faces plus the 15-point bonus — stated as
equivalence with the spec's formula together with the spec's worked
examples: {5,7,9} scores 21 bare, 42 with Times2, 54 with Times2+Plus4+Plus8,
{1..7}+Plus4 with bonus scores 47, and a busted hand scores 0. -/
theorem c5_calculate_score_matches_spec :
    (∀ (hand : PlayerHand) (has_bonus : Bool),
        calculate_score hand has_bonus = calculate_score_spec hand has_bonus) ∧
    calculate_score ⟨{5, 7, 9}, [], [], false, false, false⟩ false = 21 ∧
    calculate_score ⟨{5, 7, 9}, [Card.modifier .TIMES_2 0], [],
        false, false, false⟩ false = 42 ∧
    calculate_score ⟨{5, 7, 9},
        [Card.modifier .TIMES_2 0, Card.modifier .PLUS_4 4,
         Card.modifier .PLUS_8 8], [], false, false, false⟩ false = 54 ∧
    calculate_score ⟨{1, 2, 3, 4, 5, 6, 7}, [Card.modifier .PLUS_4 4], [],
        false, false, false⟩ true = 47 ∧
    (∀ (hand : PlayerHand) (has_bonus : Bool), hand.has_busted = true →
        calculate_score hand has_bonus = 0) := by
  refine ⟨?_, by decide, by decide, by decide, by decide, ?_⟩
  · intro hand has_bonus
    unfold calculate_score calculate_score_spec
    by_cases hb : hand.has_busted
    · simp [hb]
    · simp only [hb, Bool.false_eq_true, if_false, get_modifier_points_eq,
        has_times_two_modifier]
      by_cases ht :
          (hand.modifiers.any fun card =>
            decide (card.modifier_type = some ModifierType.TIMES_2)) = true
      · simp only [ht, if_true]
        by_cases hbo : has_bonus = true
        · simp only [hbo, if_true]
          try ring
        · simp only [hbo, Bool.false_eq_true, if_false]
          try ring
      · simp only [ht, Bool.false_eq_true, if_false]
        by_cases hbo : has_bonus = true
        · simp only [hbo, if_true]
          try ring
        · simp only [hbo, Bool.false_eq_true, if_false]
          try ring
  · intro hand has_bonus hb
    unfold calculate_score
    simp [hb]

/-- Witness for the busted clause of the C5 theorem at a concrete hand. -/
theorem c5_calculate_score_matches_spec_witness :
    calculate_score ⟨{5, 7, 9}, [Card.modifier .TIMES_2 0], [],
      false, false, true⟩ true = 0 :=
  c5_calculate_score_matches_spec.2.2.2.2.2
    ⟨{5, 7, 9}, [Card.modifier .TIMES_2 0], [], false, false, true⟩ true rfl

/-- C2 counterexample: a busted (but not frozen) hand is still effectively
mutated by `add_card` — adding a fresh number to a busted empty hand grows
its held-numbers set (and returns SUCCESS), so "is_frozen = true or
has_busted = true implies no effective mutation" is false for the
has_busted side. -/
theorem c2_counterexample_busted_hand_mutates :
    (PlayerHand.mk ∅ [] [] false false true).has_busted = true ∧
    ((PlayerHand.mk ∅ [] [] false false true).add_card (Card.number 5)).1.number_cards
      ≠ (PlayerHand.mk ∅ [] [] false false true).number_cards ∧
    ((PlayerHand.mk ∅ [] [] false false true).add_card (Card.number 5)).2
      = AddCardResult.SUCCESS := by
  refine ⟨rfl, ?_, rfl⟩
  decide

/-- C2 amended: only the frozen flag blocks `add_card` — for every hand
with `is_frozen = true` and every card, `add_card` changes nothing at all
and returns FROZEN (busted hands are instead protected by the caller:
`GameState.draw_card` refuses to draw for them). -/
theorem c2_frozen_hand_add_card_noop (h : PlayerHand) (card : Card)
    (hf : h.is_frozen = true) :
    h.add_card card = (h, AddCardResult.FROZEN) := by
  simp [PlayerHand.add_card, hf]

/-- Witness for the amended C2 theorem at a concrete frozen hand. -/
theorem c2_frozen_hand_add_card_noop_witness :
    (PlayerHand.mk {3} [] [] false true false).add_card (Card.number 3)
      = (PlayerHand.mk {3} [] [] false true false, AddCardResult.FROZEN) :=
  c2_frozen_hand_add_card_noop (PlayerHand.mk {3} [] [] false true false)
    (Card.number 3) rfl

/-- Helper: if no visible card is a SECOND_CHANCE action, the removal loop
leaves the list unchanged. -/
theorem removeFirstSecondChance_of_count_zero (l : List Card)
    (h : l.countP (fun c => c.action_type == some ActionType.SECOND_CHANCE) = 0) :
    removeFirstSecondChance l = l := by
  induction l with
  | nil => rfl
  | cons c rest ih =>
    rw [List.countP_cons] at h
    by_cases hc : c.action_type = some ActionType.SECOND_CHANCE
    · simp [hc] at h
    · rw [removeFirstSecondChance, if_neg hc, ih]
      simp [hc] at h
      simpa using h

/-- Helper: if some visible card is a SECOND_CHANCE action, the removal
loop removes exactly one of them. -/
theorem removeFirstSecondChance_count (l : List Card)
    (h : 0 < l.countP (fun c => c.action_type == some ActionType.SECOND_CHANCE)) :
    (removeFirstSecondChance l).countP
        (fun c => c.action_type == some ActionType.SECOND_CHANCE) + 1
      = l.countP (fun c => c.action_type == some ActionType.SECOND_CHANCE) := by
  induction l with
  | nil => simp at h
  | cons c rest ih =>
    by_cases hc : c.action_type = some ActionType.SECOND_CHANCE
    · rw [removeFirstSecondChance, if_pos hc, List.countP_cons]
      simp [hc]
    · rw [removeFirstSecondChance, if_neg hc, List.countP_cons,
        List.countP_cons]
      simp only [List.countP_cons, hc] at h
      have h' : 0 < rest.countP
          (fun c => c.action_type == some ActionType.SECOND_CHANCE) := by
        simpa [hc] using h
      simp [hc, ← ih h']

/-- Helper: removing one matching card shortens the list by one. -/
theorem removeFirstSecondChance_length (l : List Card)
    (h : 0 < l.countP (fun c => c.action_type == some ActionType.SECOND_CHANCE)) :
    (removeFirstSecondChance l).length + 1 = l.length := by
  induction l with
  | nil => simp at h
  | cons c rest ih =>
    by_cases hc : c.action_type = some ActionType.SECOND_CHANCE
    · rw [removeFirstSecondChance, if_pos hc]
      rfl
    · rw [removeFirstSecondChance, if_neg hc]
      have h' : 0 < rest.countP
          (fun c => c.action_type == some ActionType.SECOND_CHANCE) := by
        simpa [hc] using h
      simp [← ih h']

/-- C10: whenever `use_second_chance` succeeds, the only fields that change
are `second_chance_available` (cleared) and `action_cards` (the first
visible SECOND_CHANCE card removed, if any is visible: unchanged when none
is, exactly one card shorter and one SECOND_CHANCE poorer when one is);
numbers, modifiers, and the frozen/busted flags are untouched, and in
particular the duplicate number value stays held. -/
theorem c10_use_second_chance_frame (h : PlayerHand) (c : Card)
    (h' : PlayerHand) (hs : h.use_second_chance c = some h') :
    h'.second_chance_available = false ∧
    h'.number_cards = h.number_cards ∧
    h'.modifiers = h.modifiers ∧
    h'.is_frozen = h.is_frozen ∧
    h'.has_busted = h.has_busted ∧
    h'.action_cards = removeFirstSecondChance h.action_cards ∧
    (∀ v : ℕ, c = Card.number v → v ∈ h'.number_cards) ∧
    (h.action_cards.countP
        (fun x => x.action_type == some ActionType.SECOND_CHANCE) = 0 →
      h'.action_cards = h.action_cards) ∧
    (0 < h.action_cards.countP
        (fun x => x.action_type == some ActionType.SECOND_CHANCE) →
      h'.action_cards.countP
          (fun x => x.action_type == some ActionType.SECOND_CHANCE) + 1
        = h.action_cards.countP
            (fun x => x.action_type == some ActionType.SECOND_CHANCE) ∧
      h'.action_cards.length + 1 = h.action_cards.length) := by
  unfold PlayerHand.use_second_chance at hs
  by_cases hsc : h.second_chance_available = true
  · cases c with
    | number v =>
      by_cases hv : v ∈ h.number_cards
      · simp only [hsc, Bool.not_true, Bool.false_eq_true, if_false, hv,
          if_true, Option.some.injEq] at hs
        subst hs
        refine ⟨rfl, rfl, rfl, rfl, rfl, rfl, ?_, ?_, ?_⟩
        · intro w hw
          cases hw
          exact hv
        · intro h0
          simpa using removeFirstSecondChance_of_count_zero h.action_cards h0
        · intro hpos
          exact ⟨by simpa using removeFirstSecondChance_count h.action_cards hpos,
                 by simpa using removeFirstSecondChance_length h.action_cards hpos⟩
      · simp [hsc, hv] at hs
    | modifier m x => simp [hsc] at hs
    | action a => simp [hsc] at hs
  · simp only [Bool.not_eq_true] at hsc
    simp [hsc] at hs

/-- Witness for the C10 frame theorem at a concrete hand holding {5} with a
visible SECOND_CHANCE card. -/
theorem c10_use_second_chance_frame_witness :
    (PlayerHand.mk {5} [] [] false false false).second_chance_available = false ∧
    (PlayerHand.mk {5} [] [] false false false).number_cards
      = (PlayerHand.mk {5} [] [Card.action .SECOND_CHANCE] true false false).number_cards ∧
    (PlayerHand.mk {5} [] [] false false false).modifiers
      = (PlayerHand.mk {5} [] [Card.action .SECOND_CHANCE] true false false).modifiers :=
  ⟨(c10_use_second_chance_frame
      (PlayerHand.mk {5} [] [Card.action .SECOND_CHANCE] true false false)
      (Card.number 5) (PlayerHand.mk {5} [] [] false false false) (by decide)).1,
   (c10_use_second_chance_frame
      (PlayerHand.mk {5} [] [Card.action .SECOND_CHANCE] true false false)
      (Card.number 5) (PlayerHand.mk {5} [] [] false false false) (by decide)).2.1,
   (c10_use_second_chance_frame
      (PlayerHand.mk {5} [] [Card.action .SECOND_CHANCE] true false false)
      (Card.number 5) (PlayerHand.mk {5} [] [] false false false) (by decide)).2.2.1⟩

/-- The claimed 94-card composition, as a predicate on a card list: the
exact standard multiset, 94 cards, Number counts {0:1, 1:1, 2:2, ..., 12:12}
(and none outside 0..12), one of each Modifier kind, three of each Action
kind. -/
def deckComposition (l : List Card) : Prop :=
  (l : Multiset Card) = (createStandardDeck : Multiset Card) ∧
  l.length = 94 ∧
  (∀ v : ℕ, countNumberInDeck l v
      = if 13 ≤ v then 0 else if v ≤ 1 then 1 else v) ∧
  (∀ m : ModifierType, countModifierInDeck l m = 1) ∧
  (∀ a : ActionType, countActionInDeck l a = 3)

/-- Helper: the composition predicate only depends on the multiset of
cards, so it transports along permutations. -/
theorem deckComposition_of_perm (l₁ l₂ : List Card) (hp : l₁.Perm l₂)
    (h : deckComposition l₂) : deckComposition l₁ := by
  obtain ⟨hm, hl, hn, hmod, hact⟩ := h
  refine ⟨?_, ?_, ?_, ?_, ?_⟩
  · rw [← hm]
    exact Quot.sound hp
  · rw [hp.length_eq, hl]
  · intro v
    rw [countNumberInDeck, hp.countP_eq, ← countNumberInDeck, hn]
  · intro m
    rw [countModifierInDeck, hp.countP_eq, ← countModifierInDeck, hmod]
  · intro a
    rw [countActionInDeck, hp.countP_eq, ← countActionInDeck, hact]

/-- Helper: every Number card in the standard deck has value at most 12. -/
theorem createStandardDeck_values_le :
    ∀ c ∈ createStandardDeck, c.value?.getD 0 ≤ 12 := by decide

/-- Helper: the standard composition list satisfies the composition
predicate. -/
theorem createStandardDeck_composition : deckComposition createStandardDeck := by
  refine ⟨rfl, by decide, ?_, by decide, by decide⟩
  intro v
  by_cases hv : 13 ≤ v
  · rw [if_pos hv, countNumberInDeck, List.countP_eq_zero]
    intro c hc
    intro hb
    have hval : c.value? = some v := by simpa using hb
    have := createStandardDeck_values_le c hc
    rw [hval] at this
    simp at this
    omega
  · rw [if_neg hv]
    have hv' : v < 13 := by omega
    clear hv
    revert v
    decide

/-- C6: a freshly constructed deck, and any deck after `reset()` (for any
shuffle outcome), holds exactly the standard 94-card multiset with the
claimed per-category counts. -/
theorem c6_deck_composition :
    deckComposition Deck.new.cards ∧
    ∀ (d : Deck) (shuffled : List Card),
      d.original_cards = createStandardDeck →
      shuffled.Perm d.original_cards →
      deckComposition (d.reset shuffled).cards := by
  constructor
  · exact createStandardDeck_composition
  · intro d shuffled horig hperm
    rw [horig] at hperm
    exact deckComposition_of_perm _ _ hperm createStandardDeck_composition

/-- Witness for C6's reset clause: resetting a fresh deck with the reversed
standard order (one concrete shuffle outcome). -/
theorem c6_deck_composition_witness :
    deckComposition (Deck.new.reset createStandardDeck.reverse).cards :=
  c6_deck_composition.2 Deck.new createStandardDeck.reverse rfl
    (createStandardDeck.reverse_perm)

/-- Helper: one step preserves the settled flip-seven claim.  A draw while
the round is inactive raises in the source before touching anything, so the
state is unchanged; `end_round` rewrites only `round_active` (to false). -/
theorem applyStep_preserves_claim (gs : GameState) (p : ℕ) (s : Step)
    (hc : gs.flip_seven_claimed = true)
    (hp : gs.flip_seven_player_idx = some p)
    (ha : gs.round_active = false) :
    (applyStep gs s).flip_seven_claimed = true ∧
    (applyStep gs s).flip_seven_player_idx = some p ∧
    (applyStep gs s).round_active = false := by
  cases s with
  | draw pidx =>
    have hnone : gs.draw_card pidx = none := by
      unfold GameState.draw_card
      rw [ha]
      rfl
    simp only [applyStep, hnone]
    exact ⟨hc, hp, ha⟩
  | endRound =>
    simp only [applyStep, GameState.end_round]
    exact ⟨hc, hp, by simp⟩

/-- C7: once a draw has set `flip_seven_claimed`, recorded the claiming
player, and forced `round_active = false`, no later sequence of `draw_card`
and `end_round` steps within the round ever changes
`flip_seven_player_idx` or reactivates `round_active` (or unsets the
claim). -/
theorem c7_first_claim_wins (gs : GameState) (p : ℕ) (steps : List Step)
    (hc : gs.flip_seven_claimed = true)
    (hp : gs.flip_seven_player_idx = some p)
    (ha : gs.round_active = false) :
    (steps.foldl applyStep gs).flip_seven_claimed = true ∧
    (steps.foldl applyStep gs).flip_seven_player_idx = some p ∧
    (steps.foldl applyStep gs).round_active = false := by
  induction steps generalizing gs with
  | nil => exact ⟨hc, hp, ha⟩
  | cons s rest ih =>
    rw [List.foldl_cons]
    obtain ⟨hc', hp', ha'⟩ := applyStep_preserves_claim gs p s hc hp ha
    exact ih (applyStep gs s) hc' hp' ha'

/-- Witness for C7 at a concrete claimed state and step sequence. -/
theorem c7_first_claim_wins_witness :
    (([Step.draw 0, Step.endRound, Step.draw 1].foldl applyStep
        ⟨Deck.new, [emptyHand], true, some 0, false⟩).flip_seven_claimed = true ∧
     ([Step.draw 0, Step.endRound, Step.draw 1].foldl applyStep
        ⟨Deck.new, [emptyHand], true, some 0, false⟩).flip_seven_player_idx = some 0 ∧
     ([Step.draw 0, Step.endRound, Step.draw 1].foldl applyStep
        ⟨Deck.new, [emptyHand], true, some 0, false⟩).round_active = false) :=
  c7_first_claim_wins ⟨Deck.new, [emptyHand], true, some 0, false⟩ 0
    [Step.draw 0, Step.endRound, Step.draw 1] rfl rfl rfl

/-- A remaining-deck card is a "duplicate" for a set `s` of held values if
it is a Number card whose value lies in `s` (the membership filter of the
source's duplicate-count comprehension). -/
def duplicatesHeld (s : Finset ℕ) (c : Card) : Bool :=
  match c.value? with
  | some v => decide (v ∈ s)
  | none => false

/-- Helper: summing the per-value remaining counts over a set of values
counts exactly the remaining cards whose Number value lies in the set. -/
theorem sum_countNumber_eq_countP (s : Finset ℕ) (l : List Card) :
    (∑ v ∈ s, countNumberInDeck l v) = l.countP (duplicatesHeld s) := by
  induction l with
  | nil => simp [countNumberInDeck]
  | cons c rest ih =>
    simp only [countNumberInDeck, List.countP_cons] at ih ⊢
    rw [Finset.sum_add_distrib, ih]
    congr 1
    cases c with
    | number w =>
      simp only [Card.value?, duplicatesHeld, beq_iff_eq, Option.some.injEq]
      rw [Finset.sum_ite_eq s w fun _ => 1]
      by_cases hw : w ∈ s <;> simp [hw]
    | modifier m x => simp [Card.value?, duplicatesHeld]
    | action a => simp [Card.value?, duplicatesHeld]

/-- Replace the held-numbers set of player `pidx` (used to state
monotonicity of the bust probability in the held numbers, all other state
fixed). -/
def setPlayerNumbers (gs : GameState) (pidx : ℕ) (s : Finset ℕ) : GameState :=
  { gs with
    players :=
      gs.players.set pidx { getPlayer gs pidx with number_cards := s } }

/-- Helper: reading back a player that was just written. -/
theorem getPlayer_set (gs : GameState) (pidx : ℕ) (h : PlayerHand)
    (hlt : pidx < gs.players.length) :
    getPlayer { gs with players := gs.players.set pidx h } pidx = h := by
  unfold getPlayer
  rw [List.getD_eq_getElem?_getD, List.getElem?_set_self]
  · rfl
  · simpa using hlt

/-- C8: for every game state and valid player index, the bust probability
lies in [0,1]; when second chance is unavailable and cards remain it equals
the fraction of remaining deck cards whose Number value duplicates a held
value; it is exactly 0 whenever second chance is available; and for a fixed
remaining deck it is non-decreasing as the held-numbers set grows. -/
theorem c8_bust_probability_props (gs : GameState) (pidx : ℕ)
    (hlt : pidx < gs.players.length) :
    (0 ≤ calculate_bust_probability gs pidx ∧
      calculate_bust_probability gs pidx ≤ 1) ∧
    ((getPlayer gs pidx).second_chance_available = false →
      gs.deck.cards ≠ [] →
      calculate_bust_probability gs pidx
        = ((gs.deck.cards.countP
              (duplicatesHeld (getPlayer gs pidx).number_cards) : ℚ)
            / (gs.deck.cards.length : ℚ))) ∧
    ((getPlayer gs pidx).second_chance_available = true →
      calculate_bust_probability gs pidx = 0) ∧
    (∀ s₂ : Finset ℕ, (getPlayer gs pidx).number_cards ⊆ s₂ →
      calculate_bust_probability gs pidx
        ≤ calculate_bust_probability (setPlayerNumbers gs pidx s₂) pidx) := by
  have key : ∀ (gs' : GameState) (p' : ℕ),
      0 ≤ calculate_bust_probability gs' p' ∧
      calculate_bust_probability gs' p' ≤ 1 := by
    intro gs' p'
    unfold calculate_bust_probability
    by_cases hn : gs'.deck.cards_remaining = 0
    · simp [hn]
    · simp only [hn, if_false]
      by_cases hsc : (getPlayer gs' p').second_chance_available = true
      · simp [hsc]
      · simp only [hsc, Bool.false_eq_true, if_false]
        have hpos : (0 : ℚ) < (gs'.deck.cards_remaining : ℚ) := by
          exact_mod_cast Nat.pos_of_ne_zero hn
        constructor
        · positivity
        · rw [div_le_one hpos]
          have hle : (∑ v ∈ (getPlayer gs' p').number_cards,
              countNumberInDeck gs'.deck.cards v) ≤ gs'.deck.cards_remaining := by
            rw [sum_countNumber_eq_countP]
            exact List.countP_le_length _
          exact_mod_cast hle
  refine ⟨key gs pidx, ?_, ?_, ?_⟩
  · intro hsc hne
    unfold calculate_bust_probability
    have hn : gs.deck.cards_remaining ≠ 0 := by
      unfold Deck.cards_remaining
      simpa using hne
    simp only [hn, if_false, hsc, Bool.false_eq_true]
    rw [sum_countNumber_eq_countP]
    rfl
  · intro hsc
    unfold calculate_bust_probability
    by_cases hn : gs.deck.cards_remaining = 0
    · simp [hn]
    · simp [hn, hsc]
  · intro s₂ hsub
    have hhand : getPlayer (setPlayerNumbers gs pidx s₂) pidx
        = { getPlayer gs pidx with number_cards := s₂ } :=
      getPlayer_set gs pidx _ hlt
    unfold calculate_bust_probability
    have hdeck : (setPlayerNumbers gs pidx s₂).deck = gs.deck := rfl
    rw [hdeck, hhand]
    by_cases hn : gs.deck.cards_remaining = 0
    · simp [hn]
    · simp only [hn, if_false]
      by_cases hsc : (getPlayer gs pidx).second_chance_available = true
      · simp [hsc]
      · simp only [hsc, Bool.false_eq_true, if_false]
        have hpos : (0 : ℚ) < (gs.deck.cards_remaining : ℚ) := by
          exact_mod_cast Nat.pos_of_ne_zero hn
        have hmono : (∑ v ∈ (getPlayer gs pidx).number_cards,
              countNumberInDeck gs.deck.cards v)
            ≤ ∑ v ∈ s₂, countNumberInDeck gs.deck.cards v :=
          Finset.sum_le_sum_of_subset hsub
        exact (div_le_div_iff_of_pos_right hpos).mpr (by exact_mod_cast hmono)

/-- Witness for C8 at a concrete one-player state holding {5}, growing the
held set to {5, 7}. -/
theorem c8_bust_probability_props_witness :
    (0 ≤ calculate_bust_probability
        ⟨Deck.new, [⟨{5}, [], [], false, false, false⟩], false, none, true⟩ 0 ∧
      calculate_bust_probability
        ⟨Deck.new, [⟨{5}, [], [], false, false, false⟩], false, none, true⟩ 0 ≤ 1) ∧
    calculate_bust_probability
        ⟨Deck.new, [⟨{5}, [], [], false, false, false⟩], false, none, true⟩ 0
      ≤ calculate_bust_probability
          (setPlayerNumbers
            ⟨Deck.new, [⟨{5}, [], [], false, false, false⟩], false, none, true⟩
            0 {5, 7}) 0 :=
  ⟨(c8_bust_probability_props
      ⟨Deck.new, [⟨{5}, [], [], false, false, false⟩], false, none, true⟩ 0
      (by decide)).1,
   (c8_bust_probability_props
      ⟨Deck.new, [⟨{5}, [], [], false, false, false⟩], false, none, true⟩ 0
      (by decide)).2.2.2 {5, 7} (by decide)⟩

/-- A concrete state exercising the FLIP_THREE branch of the EV engine: one
player whose hand is empty except `second_chance_available = true`, and a
two-card deck containing a FlipThree, mid-round. -/
def gsC1 : GameState :=
  { deck := { cards := [Card.number 0, Card.action .FLIP_THREE],
              original_cards := [Card.number 0, Card.action .FLIP_THREE] }
    players := [{ emptyHand with second_chance_available := true }]
    flip_seven_claimed := false
    flip_seven_player_idx := none
    round_active := true }

/-- C1: the EV engine is not read-only.  At `gsC1` the player's
`second_chance_available` flag is true before the call and false after
`calculate_expected_value_of_hit` (the write happens inside
`_estimate_flip_three_ev`, on the real hand, whenever a FlipThree remains
in a deck of more than one card), so both `calculate_expected_value_of_hit`
and `recommend_action` change the real game state, contradicting the claim
that all speculative scoring happens on independent clones. -/
theorem c1_ev_engine_mutates_real_hand :
    (getPlayer gsC1 0).second_chance_available = true ∧
    (getPlayer (calculate_expected_value_of_hit gsC1 0).2 0).second_chance_available
      = false ∧
    (calculate_expected_value_of_hit gsC1 0).2 ≠ gsC1 ∧
    (getPlayer (recommend_action gsC1 0).2 0).second_chance_available = false ∧
    (recommend_action gsC1 0).2 ≠ gsC1 := by
  refine ⟨rfl, ?_, ?_, ?_, ?_⟩ <;>
  · norm_num [recommend_action, calculate_expected_value_of_hit,
      estimate_flip_three_ev, flipThreeLoop, gsC1, getPlayer, emptyHand,
      setPlayerSC, Deck.cards_remaining, countActionInDeck, countNumberInDeck,
      countModifierInDeck, deckNumberValues, List.countP, List.countP.go,
      Card.action_type, Card.value?, Card.modifier_type, calculate_score,
      PlayerHand.has_flip_seven, has_times_two_modifier, get_modifier_points,
      numberTerm, modifierTerm, simulate_add_number, simulate_add_modifier,
      GameState.mk.injEq, PlayerHand.mk.injEq, Deck.mk.injEq]

/-- A hand holding six uniques 0..5, one short of flip seven. -/
def handC4 : PlayerHand := ⟨{0, 1, 2, 3, 4, 5}, [], [], false, false, false⟩

/-- C4 counterexample: with `handC4` and a remaining deck holding the single
card Number 6 (count 1 of 1), the code's per-number EV contribution is 51 =
1 x (21 + 15 + 15), not the claimed "score of the clone plus exactly 15"
= 1 x (21 + 15) = 36: the flip-seven bonus enters twice, once through the
bonus flag of `calculate_score` and once through the explicit `score += 15`. -/
theorem c4_counterexample_double_bonus :
    numberTerm 1 1 handC4 6 = 51 ∧
    ((1 : ℚ) / (1 : ℚ)) *
        ((calculate_score (simulate_add_number handC4 6) false : ℚ) + 15) = 36 ∧
    (51 : ℚ) ≠ 36 := by
  refine ⟨?_, ?_, by norm_num⟩ <;>
  · norm_num [numberTerm, handC4, simulate_add_number, calculate_score,
      PlayerHand.has_flip_seven, has_times_two_modifier, get_modifier_points,
      Finset.sum_insert, Finset.mem_insert]

/-- C4 amended: for a number `v` not yet held (and a hand that has not
busted — the EV loop only runs for such hands), the per-number contribution
equals probability times (the clone's bonus-free score plus 30 when the
clone reaches exactly 7 uniques): the +15 flip-seven bonus is effectively
applied twice, once inside `calculate_score` via the bonus flag and once by
the explicit `score += 15`. -/
theorem c4_number_contribution_double_bonus (cnt n : ℕ) (hand : PlayerHand)
    (v : ℕ) (hv : v ∉ hand.number_cards) (hb : hand.has_busted = false) :
    numberTerm cnt n hand v
      = ((cnt : ℚ) / (n : ℚ)) *
          ((calculate_score (simulate_add_number hand v) false : ℚ)
            + (if (simulate_add_number hand v).has_flip_seven then 30 else 0)) := by
  have hclone : (simulate_add_number hand v).has_busted = false := hb
  have hsplit : ∀ b : Bool,
      calculate_score (simulate_add_number hand v) b
        = calculate_score (simulate_add_number hand v) false
            + (if b then 15 else 0) := by
    intro b
    unfold calculate_score
    rw [hclone]
    cases b <;> simp
  unfold numberTerm
  rw [if_neg hv]
  by_cases h7 : (simulate_add_number hand v).has_flip_seven = true
  · rw [h7, hsplit]
    push_cast
    norm_num
    left
    ring
  · rw [eq_false_of_ne_true h7, hsplit]
    push_cast
    norm_num

/-- Witness for the amended C4 theorem at the concrete six-unique hand. -/
theorem c4_number_contribution_double_bonus_witness :
    numberTerm 1 1 handC4 6
      = ((1 : ℚ) / (1 : ℚ)) *
          ((calculate_score (simulate_add_number handC4 6) false : ℚ)
            + (if (simulate_add_number handC4 6).has_flip_seven then 30 else 0)) :=
  c4_number_contribution_double_bonus 1 1 handC4 6 (by decide) rfl

/-- The results whose appearance makes the draw loop of
`handle_flip_three` break (besides a drawn Freeze card): Bust and
DuplicateWithSecondChance. -/
def isTerminalRes : FlipResult → Bool
  | .res AddCardResult.BUST => true
  | .res AddCardResult.DUPLICATE_WITH_SECOND_CHANCE => true
  | _ => false

mutual
/-- Structural stopping discipline of one `handle_flip_three` result entry:
a plain result is fine, a nested sub-list must satisfy `stoppedList`. -/
def FlipResult.wellStopped : FlipResult → Bool
  | .res _ => true
  | .sub rs => stoppedList rs
/-- Structural stopping discipline of a `handle_flip_three` result list, at
every nesting level: within each result list (the top one and every nested
sub-list), any Bust or DuplicateWithSecondChance entry is the final entry
of that list. -/
def stoppedList : List FlipResult → Bool
  | [] => true
  | [e] => FlipResult.wellStopped e
  | e :: e2 :: rest =>
    FlipResult.wellStopped e && !isTerminalRes e && stoppedList (e2 :: rest)
end

/-- A result list is flat when no entry is a nested sub-list. -/
def isFlat (rs : List FlipResult) : Bool :=
  rs.all fun e => match e with | .res _ => true | .sub _ => false

/-- A concrete mid-round state for exercising nested Flip-Three: one empty
hand, deck (drawn from the back) `FlipThree, 4, 3, 2, 1`. -/
def gsC3 : GameState :=
  { deck := { cards := [Card.number 1, Card.number 2, Card.number 3,
                        Card.number 4, Card.action .FLIP_THREE],
              original_cards := [Card.number 1, Card.number 2, Card.number 3,
                        Card.number 4, Card.action .FLIP_THREE] }
    players := [emptyHand]
    flip_seven_claimed := false
    flip_seven_player_idx := none
    round_active := true }

/-- C3 counterexample: at `gsC3` the first drawn card is a FlipThree, whose
recursive resolution (drawing 4, 3, 2) is appended as a single nested
sub-list rather than spliced inline, so the returned sequence is not flat
and has two top-level entries for the four cards applied to the hand. -/
theorem c3_counterexample_nested_not_flat :
    (handle_flip_three gsC3 0).1
      = [FlipResult.sub [FlipResult.res .SUCCESS, FlipResult.res .SUCCESS,
          FlipResult.res .SUCCESS], FlipResult.res .SUCCESS] ∧
    isFlat (handle_flip_three gsC3 0).1 = false := ⟨rfl, rfl⟩

/-- Helper: unfold `stoppedList` on a cons without splitting on the tail's
shape. -/
theorem stoppedList_cons (e : FlipResult) (rest : List FlipResult) :
    stoppedList (e :: rest)
      = (FlipResult.wellStopped e &&
          (rest.isEmpty || (!isTerminalRes e && stoppedList rest))) := by
  cases rest with
  | nil => simp [stoppedList]
  | cons f fs => simp [stoppedList, Bool.and_assoc]

/-- Helper: the draw loop obeys the stopping discipline at every fuel and
every iteration budget. -/
theorem c3_flipDraws_stops (pidx : ℕ) (fuel : ℕ) :
    ∀ (gs : GameState) (k : ℕ), stoppedList (flipDraws pidx fuel gs k).1 = true := by
  induction fuel with
  | zero => intro gs k; simp [flipDraws, stoppedList]
  | succ fuel ih =>
    intro gs k
    cases k with
    | zero => simp [flipDraws, stoppedList]
    | succ k =>
      rw [flipDraws]
      cases hL : gs.deck.cards.getLast? with
      | none =>
        simp only []
        exact ih gs k
      | some card =>
        simp only []
        by_cases hFT : card.action_type = some ActionType.FLIP_THREE
        · rw [if_pos hFT, stoppedList_cons]
          simp [FlipResult.wellStopped, isTerminalRes, ih]
        · rw [if_neg hFT]
          by_cases hFR : card.action_type = some ActionType.FREEZE
          · rw [if_pos hFR]
            simp [stoppedList, FlipResult.wellStopped]
          · rw [if_neg hFR]
            by_cases hT : (addCardToPlayer
                { gs with deck := { gs.deck with cards := gs.deck.cards.dropLast } }
                pidx card).1 = AddCardResult.BUST
                ∨ (addCardToPlayer
                { gs with deck := { gs.deck with cards := gs.deck.cards.dropLast } }
                pidx card).1 = AddCardResult.DUPLICATE_WITH_SECOND_CHANCE
            · rw [if_pos hT]
              simp [stoppedList, FlipResult.wellStopped]
            · rw [if_neg hT]
              rw [stoppedList_cons]
              push_neg at hT
              obtain ⟨h1, h2⟩ := hT
              simp [FlipResult.wellStopped, ih]
              cases ha : (addCardToPlayer
                { gs with deck := { gs.deck with cards := gs.deck.cards.dropLast } }
                pidx card).1 <;> simp [isTerminalRes] <;> simp [ha] at h1 h2

/-- C3 amended: `handle_flip_three` returns an order-preserving log whose
top-level entries are one `AddCardResult` per ordinary card applied plus
one nested sub-list per drawn FlipThree (nested results are not spliced
inline), and within every list — top-level and nested alike — drawing
stops immediately after a Bust or DuplicateWithSecondChance result: such an
entry only ever appears in final position of its own level.  (A Frozen
result returned for a non-Freeze card drawn by an already frozen hand does
not stop the loop, and a terminal result inside a nested sub-list does not
stop the enclosing level.) -/
theorem c3_handle_flip_three_stopping_structure (gs : GameState) (pidx : ℕ) :
    stoppedList (handle_flip_three gs pidx).1 = true :=
  c3_flipDraws_stops pidx (4 * gs.deck.cards.length + 4) gs
    (min 3 gs.deck.cards.length)

/-- Helper: membership in the deck's distinct Number values. -/
theorem mem_deckNumberValues (l : List Card) (v : ℕ) :
    v ∈ deckNumberValues l ↔ Card.number v ∈ l := by
  induction l with
  | nil => simp [deckNumberValues]
  | cons c rest ih =>
    cases c with
    | number w =>
      simp only [deckNumberValues, List.foldr_cons] at ih ⊢
      simp [Finset.mem_insert, ih, eq_comm]
    | modifier m x =>
      simp only [deckNumberValues, List.foldr_cons] at ih ⊢
      simp [ih]
    | action a =>
      simp only [deckNumberValues, List.foldr_cons] at ih ⊢
      simp [ih]

set_option maxRecDepth 10000 in
/-- Helper: the standard deck's distinct Number values are exactly 0..12. -/
theorem deckNumberValues_std :
    deckNumberValues createStandardDeck = Finset.range 13 := by decide

set_option maxRecDepth 10000 in
/-- Helper: per-value Number counts of the standard deck. -/
theorem countNumber_std (v : ℕ) (hv : v < 13) :
    countNumberInDeck createStandardDeck v = if v ≤ 1 then 1 else v := by
  revert v
  decide

set_option maxRecDepth 10000 in
/-- Helper: per-kind Action counts of the standard deck. -/
theorem countAction_std :
    countActionInDeck createStandardDeck .FREEZE = 3 ∧
    countActionInDeck createStandardDeck .FLIP_THREE = 3 ∧
    countActionInDeck createStandardDeck .SECOND_CHANCE = 3 := by decide

set_option maxRecDepth 10000 in
/-- Helper: per-kind Modifier counts of the standard deck. -/
theorem countModifier_std : ∀ m : ModifierType,
    countModifierInDeck createStandardDeck m = 1 := by decide

/-- Helper: the Number part of the empty-hand EV over the standard
composition is `(sum of count(v) * v) / 94 = 650/94`. -/
theorem numbersEV_std :
    (∑ v ∈ deckNumberValues createStandardDeck,
        numberTerm (countNumberInDeck createStandardDeck v) 94 emptyHand v)
      = 325 / 47 := by
  rw [deckNumberValues_std]
  rw [Finset.sum_congr rfl
    (fun v hv => by
      rw [countNumber_std v (Finset.mem_range.mp hv)])]
  simp only [Finset.sum_range_succ, Finset.sum_range_zero]
  norm_num [numberTerm, emptyHand, simulate_add_number, calculate_score,
    PlayerHand.has_flip_seven, has_times_two_modifier, get_modifier_points]

/-- Helper: the Flip-Three estimate for an empty hand over 94 remaining
cards is `3 * 6.5 * 0.5 = 39/4` (no bust mass accumulates). -/
theorem estimate_std_value (gs : GameState) (pidx : ℕ)
    (hhand : getPlayer gs pidx = emptyHand)
    (hlen : gs.deck.cards.length = 94) :
    (estimate_flip_three_ev gs pidx).1 = 39 / 4 := by
  unfold estimate_flip_three_ev
  rw [hhand]
  simp only [Deck.cards_remaining, hlen, emptyHand]
  norm_num [flipThreeLoop]

/-- Helper: for an empty hand over any permutation of the standard deck,
the one-step EV of hitting is `(650 + 30)/94 + (3/94)*(39/4) = 2837/376`. -/
theorem ev_value_std (gs : GameState) (pidx : ℕ)
    (hhand : getPlayer gs pidx = emptyHand)
    (hperm : gs.deck.cards.Perm createStandardDeck) :
    (calculate_expected_value_of_hit gs pidx).1 = 2837 / 376 := by
  have hcnumf : countNumberInDeck gs.deck.cards
      = countNumberInDeck createStandardDeck := by
    funext v
    exact hperm.countP_eq _
  have hcactf : countActionInDeck gs.deck.cards
      = countActionInDeck createStandardDeck := by
    funext a
    exact hperm.countP_eq _
  have hcmodf : countModifierInDeck gs.deck.cards
      = countModifierInDeck createStandardDeck := by
    funext m
    exact hperm.countP_eq _
  have hvals : deckNumberValues gs.deck.cards
      = deckNumberValues createStandardDeck := by
    ext v
    rw [mem_deckNumberValues, mem_deckNumberValues]
    exact hperm.mem_iff
  have hlen : gs.deck.cards.length = 94 := by
    rw [hperm.length_eq]
    rfl
  have hest := estimate_std_value gs pidx hhand hlen
  unfold calculate_expected_value_of_hit
  rw [hhand]
  simp only [Deck.cards_remaining, hlen, hcnumf, hcactf, hcmodf, hvals,
    show (emptyHand.is_frozen || emptyHand.has_busted) = false from rfl,
    Bool.false_eq_true, if_false]
  rw [numbersEV_std]
  norm_num [hest, countAction_std.1, countAction_std.2.1,
    countAction_std.2.2, countModifier_std, modifierTerm,
    simulate_add_modifier, calculate_score, PlayerHand.has_flip_seven,
    has_times_two_modifier, get_modifier_points, modValueMap, emptyHand,
    Card.modifier_type, Card.modifier_value]
  simp only [show (ModifierType.PLUS_2 = ModifierType.TIMES_2) = False by simp,
    show (ModifierType.PLUS_4 = ModifierType.TIMES_2) = False by simp,
    show (ModifierType.PLUS_6 = ModifierType.TIMES_2) = False by simp,
    show (ModifierType.PLUS_8 = ModifierType.TIMES_2) = False by simp,
    show (ModifierType.PLUS_10 = ModifierType.TIMES_2) = False by simp,
    if_false]
  norm_num

/-- Helper: the estimator's post-state is the input state or the input
state with one player's second-chance flag overwritten. -/
theorem estimate_post_shape (gs : GameState) (pidx : ℕ) :
    (estimate_flip_three_ev gs pidx).2 = gs ∨
      ∃ b, (estimate_flip_three_ev gs pidx).2 = setPlayerSC gs pidx b := by
  unfold estimate_flip_three_ev
  dsimp only
  split
  · left
    rfl
  · split
    · right
      exact ⟨_, rfl⟩
    · right
      exact ⟨_, rfl⟩

/-- Helper: the EV computation's post-state is likewise at most a
second-chance flag overwrite. -/
theorem ev_post_shape (gs : GameState) (pidx : ℕ) :
    (calculate_expected_value_of_hit gs pidx).2 = gs ∨
      ∃ b, (calculate_expected_value_of_hit gs pidx).2 = setPlayerSC gs pidx b := by
  unfold calculate_expected_value_of_hit
  dsimp only
  split
  · left
    rfl
  · split
    · left
      rfl
    · split
      · exact estimate_post_shape gs pidx
      · left
        rfl

/-- C9: with a completely empty hand for the queried (valid) player and a
remaining deck holding the full 94-card composition in any order,
`recommend_action` returns HIT: the EV of the first draw is 2837/376 > 0,
the current score. -/
theorem c9_empty_hand_full_deck_hit (gs : GameState) (pidx : ℕ)
    (hlt : pidx < gs.players.length)
    (hhand : getPlayer gs pidx = emptyHand)
    (hperm : gs.deck.cards.Perm createStandardDeck) :
    (recommend_action gs pidx).1 = "HIT" := by
  have hev := ev_value_std gs pidx hhand hperm
  have hpost : (getPlayer (calculate_expected_value_of_hit gs pidx).2
      pidx).number_cards = ∅ := by
    rcases ev_post_shape gs pidx with h | ⟨b, h⟩
    · rw [h, hhand]
      rfl
    · rw [h, setPlayerSC, getPlayer_set gs pidx _ hlt]
      simp [hhand, emptyHand]
  have h7 : (getPlayer (calculate_expected_value_of_hit gs pidx).2
      pidx).has_flip_seven = false := by
    rw [PlayerHand.has_flip_seven, hpost]
    simp
  unfold recommend_action
  rw [hhand]
  simp only [show (emptyHand.is_frozen || emptyHand.has_busted) = false from rfl,
    Bool.false_eq_true, if_false]
  simp only [h7, Bool.false_eq_true, if_false]
  rw [hev]
  have hscore : ((calculate_score emptyHand emptyHand.has_flip_seven : ℤ) : ℚ) = 0 := by
    norm_num [calculate_score, emptyHand, PlayerHand.has_flip_seven,
      has_times_two_modifier, get_modifier_points]
  rw [hscore]
  norm_num

/-- Witness for C9 at a concrete fresh one-player state over the standard
deck order. -/
theorem c9_empty_hand_full_deck_hit_witness :
    (recommend_action ⟨Deck.new, [emptyHand], false, none, true⟩ 0).1 = "HIT" :=
  c9_empty_hand_full_deck_hit ⟨Deck.new, [emptyHand], false, none, true⟩ 0
    (by decide) rfl (List.Perm.refl _)

/-- Helper: the draw loop never grows the deck (it only pops cards), at any
fuel. -/
theorem flipDraws_deck_le (pidx : ℕ) : ∀ (fuel : ℕ) (gs : GameState) (k : ℕ),
    (flipDraws pidx fuel gs k).2.deck.cards.length ≤ gs.deck.cards.length := by
  intro fuel
  induction fuel with
  | zero => intro gs k; simp [flipDraws]
  | succ fuel ih =>
    intro gs k
    cases k with
    | zero => simp [flipDraws]
    | succ k =>
      rw [flipDraws]
      cases hL : gs.deck.cards.getLast? with
      | none =>
        simp only []
        exact ih gs k
      | some card =>
        simp only []
        have hne : gs.deck.cards ≠ [] := by
          intro h
          rw [h] at hL
          simp at hL
        have hlen0 : gs.deck.cards.length ≠ 0 := by
          simpa [List.length_eq_zero] using hne
        split
        · exact le_trans (ih _ _)
            (le_trans (ih _ _) (by simp [List.length_dropLast]))
        · split
          · simp [addCardToPlayer, List.length_dropLast]
          · split
            · simp [addCardToPlayer, List.length_dropLast]
            · exact le_trans (ih _ _)
                (by simp [addCardToPlayer, List.length_dropLast])

/-- Faithfulness of the fuel bound: two fuel budgets that both dominate
`4 * |deck| + k` yield identical runs of the draw loop, because every
recursive call strictly decreases that measure (a nested resolution pops
the drawn FlipThree card first, and the per-call iteration budget `k`
never exceeds 3). -/
theorem flipDraws_fuel_stable (pidx : ℕ) : ∀ (f₁ f₂ : ℕ) (gs : GameState) (k : ℕ),
    4 * gs.deck.cards.length + k ≤ f₁ →
    4 * gs.deck.cards.length + k ≤ f₂ →
    flipDraws pidx f₁ gs k = flipDraws pidx f₂ gs k := by
  intro f₁
  induction f₁ with
  | zero =>
    intro f₂ gs k h1 h2
    have hk : k = 0 := by omega
    subst hk
    cases f₂ with
    | zero => rfl
    | succ f₂ => simp [flipDraws]
  | succ f₁ ih =>
    intro f₂ gs k h1 h2
    cases k with
    | zero =>
      cases f₂ with
      | zero => simp [flipDraws]
      | succ f₂ => simp [flipDraws]
    | succ k =>
      obtain ⟨f₂', rfl⟩ : ∃ m, f₂ = m + 1 := ⟨f₂ - 1, by omega⟩
      rw [flipDraws, flipDraws]
      cases hL : gs.deck.cards.getLast? with
      | none =>
        simp only []
        exact ih f₂' gs k (by omega) (by omega)
      | some card =>
        simp only []
        have hne : gs.deck.cards ≠ [] := by
          intro h
          rw [h] at hL
          simp at hL
        have hlen0 : gs.deck.cards.length ≠ 0 := by
          simpa [List.length_eq_zero] using hne
        have hlen1 : gs.deck.cards.dropLast.length + 1 = gs.deck.cards.length := by
          rw [List.length_dropLast]
          omega
        have hmin : min 3 gs.deck.cards.dropLast.length ≤ 3 := by
          exact min_le_left _ _
        split
        · have e1 : flipDraws pidx f₁
              { gs with deck := { gs.deck with cards := gs.deck.cards.dropLast } }
              (min 3 gs.deck.cards.dropLast.length)
              = flipDraws pidx f₂'
                { gs with deck := { gs.deck with cards := gs.deck.cards.dropLast } }
                (min 3 gs.deck.cards.dropLast.length) := by
            apply ih <;> · simp only []; omega
          have hd := flipDraws_deck_le pidx f₂'
            { gs with deck := { gs.deck with cards := gs.deck.cards.dropLast } }
            (min 3 gs.deck.cards.dropLast.length)
          have e2 : flipDraws pidx f₁
              (flipDraws pidx f₂'
                { gs with deck := { gs.deck with cards := gs.deck.cards.dropLast } }
                (min 3 gs.deck.cards.dropLast.length)).2 k
              = flipDraws pidx f₂'
                (flipDraws pidx f₂'
                  { gs with deck := { gs.deck with cards := gs.deck.cards.dropLast } }
                  (min 3 gs.deck.cards.dropLast.length)).2 k := by
            apply ih <;> · simp only [] at hd ⊢; omega
          rw [e1, e2]
        · split
          · rfl
          · split
            · rfl
            · have e3 : flipDraws pidx f₁
                  (addCardToPlayer
                    { gs with deck := { gs.deck with cards := gs.deck.cards.dropLast } }
                    pidx card).2 k
                  = flipDraws pidx f₂'
                    (addCardToPlayer
                      { gs with deck := { gs.deck with cards := gs.deck.cards.dropLast } }
                      pidx card).2 k := by
                apply ih <;> · simp only [addCardToPlayer]; omega
              rw [e3]

/-- Faithfulness of `handle_flip_three`'s fuel choice: any sufficiently
large fuel computes the same result as the supplied `4 * |deck| + 4`, so
the fuel is an upper bound on the recursion depth of the Python function,
not a semantic parameter. -/
theorem handle_flip_three_fuel_canonical (gs : GameState) (pidx : ℕ) (f : ℕ)
    (hf : 4 * gs.deck.cards.length + min 3 gs.deck.cards.length ≤ f) :
    flipDraws pidx f gs (min 3 gs.deck.cards.length)
      = handle_flip_three gs pidx := by
  unfold handle_flip_three
  apply flipDraws_fuel_stable pidx f (4 * gs.deck.cards.length + 4) gs
    (min 3 gs.deck.cards.length) hf
  have : min 3 gs.deck.cards.length ≤ 3 := min_le_left _ _
  omega
